import Mathlib

/-!
Verification development for the swaption volatility cube
(`ql/Volatilities/swaptionvolcube.cpp`).

Reals are embedded as `ℚ` (the source computes with `double`; all the
operations involved are field operations and comparisons).  The generic
interpolation primitives (`ql/Math/linearinterpolation.hpp`,
`bilinearinterpolation`) and the SABR fit (`ql/Math/sabrinterpolation.hpp`)
are external collaborators that are not among the sources; they are modelled
from the spec at their interface boundary and marked as such.
-/

deriving instance DecidableEq for Except

namespace QuantLib

/-! ## Vector searching (`std::lower_bound`, `std::binary_search`) -/

/-- Embeds `std::lower_bound` on a `std::vector<Real>`: the index of the first
element not less than `x`, or the length of the vector when every element is
less than `x`. -/
def lowerBound (l : List ℚ) (x : ℚ) : ℕ :=
  match l with
  | [] => 0
  | a :: t => if x ≤ a then 0 else lowerBound t x + 1

/-- Embeds `std::binary_search` on a sorted `std::vector<Real>`, which decides
membership. -/
def binarySearch (l : List ℚ) (x : ℚ) : Bool :=
  decide (x ∈ l)

/-! ## Matrices (`QuantLib::Matrix`), as row lists of column lists -/

/-- A `QuantLib::Matrix`, stored by rows. -/
abbrev Mat := List (List ℚ)

/-- `m.rows()`. -/
def matRows (m : Mat) : ℕ := m.length

/-- `m.columns()`. -/
def matCols (m : Mat) : ℕ := (m.getD 0 []).length

/-- `m[i][j]`, defaulting to `0` out of range. -/
def matGet (m : Mat) (i j : ℕ) : ℚ := (m.getD i []).getD j 0

/-- `m[i][j] = x`, a no-op out of range. -/
def matSet (m : Mat) (i j : ℕ) (x : ℚ) : Mat :=
  m.set i ((m.getD i []).set j x)

/-- An all-zero matrix, `Matrix(rows, cols, 0.0)`. -/
def matZero (rows cols : ℕ) : Mat :=
  List.replicate rows (List.replicate cols 0)

/-! ## Interpolation primitives

Modelled from the spec: the 1D/2D interpolation interface of section 6,
`construct(xValues, yValues, matrix, extrapolate) -> Surface` and
`evaluate(x, y) -> real`; the implementations live in `ql/Math`, outside the
sources at hand.  The interval used for a query is the bracketing interval of
the query point, clamped to the first and last interval so that queries
beyond the grid extrapolate linearly. -/

/-- The interval index used by the (extrapolating) interpolation primitives. -/
def locateIdx (xs : List ℚ) (x : ℚ) : ℕ :=
  min (lowerBound xs x - 1) (xs.length - 2)

/-- Modelled from the spec: the 1D linear interpolation primitive
(`LinearInterpolation`, in `ql/Math`, not among the sources), with
extrapolation beyond the grid. -/
def linearInterpEval (xs ys : List ℚ) (x : ℚ) : ℚ :=
  let j := locateIdx xs x
  let x0 := xs.getD j 0
  let x1 := xs.getD (j + 1) 0
  let y0 := ys.getD j 0
  let y1 := ys.getD (j + 1) 0
  y0 + (y1 - y0) * (x - x0) / (x1 - x0)

/-- Modelled from the spec: the 2D bilinear interpolation primitive
(`BilinearInterpolation`, in `ql/Math`, not among the sources), with
extrapolation beyond the grid.  The matrix rows are indexed along `xs` and the
columns along `ys`, the convention of the layers of the cube below. -/
def bilinearEval (xs ys : List ℚ) (zs : Mat) (x y : ℚ) : ℚ :=
  let i := locateIdx xs x
  let j := locateIdx ys y
  let x0 := xs.getD i 0
  let x1 := xs.getD (i + 1) 0
  let y0 := ys.getD j 0
  let y1 := ys.getD (j + 1) 0
  let tx := (x - x0) / (x1 - x0)
  let ty := (y - y0) / (y1 - y0)
  matGet zs i j * (1 - tx) * (1 - ty) + matGet zs (i + 1) j * tx * (1 - ty) +
    matGet zs i (j + 1) * (1 - tx) * ty + matGet zs (i + 1) (j + 1) * tx * ty

/-- A constructed 2D interpolation surface, as the snapshot of the data it was
built from (the spec treats `interpolators` as derived data recomputed from
the stored values). -/
structure Interp2D where
  xs : List ℚ
  ys : List ℚ
  zs : Mat
  deriving DecidableEq, Inhabited, Repr

/-- Evaluation of a surface snapshot. -/
def interpEval (itp : Interp2D) (x y : ℚ) : ℚ :=
  bilinearEval itp.xs itp.ys itp.zs x y

/-! ## The layered tensor `SwaptionVolatilityCubeBySabr::Cube` -/

/-- The layered tensor: two grid index vectors, a stack of `nLayers` matrices
sized `expiries × lengths`, and the per-layer interpolation surfaces. -/
structure Cube where
  expiries : List ℚ
  lengths : List ℚ
  nLayers : ℕ
  extrapolation : Bool := true
  points : List Mat
  interpolators : List Interp2D
  deriving DecidableEq, Inhabited, Repr

/-- `Cube::Cube(expiries, lengths, nLayers, extrapolation)`: requires both
grids to have more than one entry, zero-fills every layer and builds the
per-layer interpolators. -/
def Cube.construct (expiries lengths : List ℚ) (nLayers : ℕ)
    (extrapolation : Bool := true) : Except String Cube :=
  if ¬ expiries.length > 1 then .error "Cube::Cube(...): wrong input expiries"
  else if ¬ lengths.length > 1 then .error "Cube::Cube(...): wrong input lengths"
  else
    let points : List Mat := List.replicate nLayers (matZero expiries.length lengths.length)
    .ok { expiries := expiries, lengths := lengths, nLayers := nLayers,
          extrapolation := extrapolation, points := points,
          interpolators := (List.range nLayers).map
            (fun k => ⟨expiries, lengths, points.getD k []⟩) }

/-- `Cube::setPoints`: replaces the stored layers after checking the layer
count and the dimensions of the first layer against the grids. -/
def Cube.setPoints (c : Cube) (x : List Mat) : Except String Cube :=
  if ¬ x.length = c.nLayers then .error "Cube::setPoints: incompatible number of layers "
  else if ¬ matRows (x.getD 0 []) = c.expiries.length then .error "Cube::setPoints: incompatible size 1"
  else if ¬ matCols (x.getD 0 []) = c.lengths.length then .error "Cube::setPoints: incompatible size 2"
  else .ok { c with points := x }

/-- `Cube::setElement`: bounds-checked write of one stored value; does not
rebuild the interpolators. -/
def Cube.setElement (c : Cube) (indexOfLayer indexOfRow indexOfColumn : ℕ) (x : ℚ) :
    Except String Cube :=
  if ¬ indexOfLayer < c.nLayers then .error "Cube::setElement: incompatible IndexOfLayer "
  else if ¬ indexOfRow < c.expiries.length then .error "Cube::setElement: incompatible IndexOfRow"
  else if ¬ indexOfColumn < c.lengths.length then .error "Cube::setElement: incompatible IndexOfColumn"
  else
    .ok { c with
          points := c.points.set indexOfLayer
            (matSet (c.points.getD indexOfLayer []) indexOfRow indexOfColumn x) }

/-- `Cube::setLayer`: replaces one whole layer after checking its shape. -/
def Cube.setLayer (c : Cube) (i : ℕ) (x : Mat) : Except String Cube :=
  if ¬ i < c.nLayers then .error "Cube::setLayer: incompatible number of layer "
  else if ¬ matRows x = c.expiries.length then .error "Cube::setLayer: incompatible size 1"
  else if ¬ matCols x = c.lengths.length then .error "Cube::setLayer: incompatible size 2"
  else .ok { c with points := c.points.set i x }

/-- `Cube::expandLayers(i, expandExpiries, j, expandLengths)`: after checking
`i` and `j` against the current grid sizes, inserts a zero entry at `i` into
the expiry grid (resp. at `j` into the length grid), and rebuilds every layer
as a zero matrix of the grown size into which every old entry is copied, a
row index `u` moving to `u + 1` when `expandExpiries` and `u ≥ i`, a column
index `v` moving to `v + 1` when `expandLengths` and `v ≥ j` — that is, a
zero row is inserted at `i` and a zero column at `j`. -/
def Cube.expandLayers (c : Cube) (i : ℕ) (expandExpiries : Bool) (j : ℕ)
    (expandLengths : Bool) : Except String Cube :=
  if ¬ i < c.expiries.length then .error "Cube::expandLayers: incompatible size 1"
  else if ¬ j < c.lengths.length then .error "Cube::expandLayers: incompatible size 2"
  else
    let expiries' := if expandExpiries then c.expiries.insertIdx i 0 else c.expiries
    let lengths' := if expandLengths then c.lengths.insertIdx j 0 else c.lengths
    let newPoints : List Mat := (List.range c.nLayers).map (fun k =>
      let m := c.points.getD k []
      let m := if expandLengths then m.map (fun row => row.insertIdx j 0) else m
      if expandExpiries then m.insertIdx i (List.replicate lengths'.length 0) else m)
    Cube.setPoints { c with expiries := expiries', lengths := lengths' } newPoints

/-- `Cube::setPoint(expiry, length, point)`: the densification primitive.
Locates both coordinates with `std::lower_bound`; when either is absent from
its grid, grows every layer through `expandLayers` at the located insertion
indices; then writes `point[k]` into layer `k` at the located indices and
stores the two coordinates into the grids at those indices. -/
def Cube.setPoint (c : Cube) (expiry len : ℚ) (point : List ℚ) : Except String Cube :=
  let expandExpiries := !(binarySearch c.expiries expiry)
  let expandLengths := !(binarySearch c.lengths len)
  let expiriesIndex := lowerBound c.expiries expiry
  let lengthsIndex := lowerBound c.lengths len
  match (if expandExpiries || expandLengths then
           c.expandLayers expiriesIndex expandExpiries lengthsIndex expandLengths
         else .ok c) with
  | .error e => .error e
  | .ok c2 =>
    .ok { c2 with
          points := (List.range c2.nLayers).map (fun k =>
            matSet (c2.points.getD k []) expiriesIndex lengthsIndex (point.getD k 0)),
          expiries := c2.expiries.set expiriesIndex expiry,
          lengths := c2.lengths.set lengthsIndex len }

/-- `Cube::operator()(expiry, length)`: evaluates the first `nLayers` stored
interpolators at the queried coordinates. -/
def Cube.eval (c : Cube) (expiry len : ℚ) : List ℚ :=
  (List.range c.nLayers).map (fun k => interpEval (c.interpolators.getD k default) expiry len)

/-- `Cube::updateInterpolators`: rebuilds the interpolator at each index
`k < nLayers` from the current grids and points, leaving any further stored
interpolators in place (the source overwrites `interpolators_[k]` in a loop
over `k < nLayers_`). -/
def Cube.updateInterpolators (c : Cube) : Cube :=
  { c with interpolators :=
      (List.range c.nLayers).map (fun k => ⟨c.expiries, c.lengths, c.points.getD k []⟩) ++
        c.interpolators.drop c.nLayers }

/-- `Cube::operator=`: copies the grids, the layer count and the
extrapolation flag, then pushes `nLayers` interpolators freshly built from the
data of the source onto the existing `interpolators_` vector — without
clearing it — and finally installs the points of the source through
`setPoints`. -/
def Cube.assign (t o : Cube) : Except String Cube :=
  let t1 : Cube :=
    { expiries := o.expiries, lengths := o.lengths, nLayers := o.nLayers,
      extrapolation := o.extrapolation, points := t.points,
      interpolators := t.interpolators ++
        (List.range o.nLayers).map (fun k => ⟨o.expiries, o.lengths, o.points.getD k []⟩) }
  t1.setPoints o.points

/-- The maintained invariant of a cube: both grids strictly increasing, one
matrix per layer, and every layer sized `expiries × lengths`. -/
def Cube.WellFormed (c : Cube) : Prop :=
  c.expiries.Sorted (· < ·) ∧ c.lengths.Sorted (· < ·) ∧
    c.points.length = c.nLayers ∧
    ∀ m ∈ c.points, m.length = c.expiries.length ∧
      ∀ row ∈ m, row.length = c.lengths.length

instance (c : Cube) : Decidable c.WellFormed := by
  unfold Cube.WellFormed
  infer_instance

/-! ## The SABR fit and `VarianceSmileSection`

The SABR fit itself (`SABRInterpolation`, `ql/Math/sabrinterpolation.hpp`:
the closed-form SABR smile plus the nonlinear optimizer) is not among the
sources; it is modelled from the spec, section 4.2 and the optimizer
interface of section 6: a calibration returns the fitted parameters together
with the residual root-mean-square error over the observation set
(`interpolationError`). -/

/-- Modelled from the spec: the result of one SABR fit — the four calibrated
parameters and the residual root-mean-square error `interpolationError`
(section 4.2; `sabrinterpolation.hpp` is not among the sources). -/
structure SabrFit where
  alpha : ℚ
  beta : ℚ
  nu : ℚ
  rho : ℚ
  error : ℚ
  deriving DecidableEq, Inhabited, Repr

/-- Modelled from the spec: the external SABR calibration routine, taking the
observed strikes and volatilities, the time to expiry and the ATM forward
(section 4.2). -/
abbrev Calibrator := List ℚ → List ℚ → ℚ → ℚ → SabrFit

/-- The fixed accuracy tolerance of the `QL_ENSURE` checks, `1e-4` (written
as a normalised rational so that concrete comparisons evaluate). -/
def sabrTolerance : ℚ := mkRat 1 10000

/-- A smile section at one node: the time to expiry, the observation data and
the smile curve `interpolation_` built at construction. -/
structure VarianceSmileSection where
  timeToExpiry : ℚ
  strikes : List ℚ
  volatilities : List ℚ
  interpolation : ℚ → ℚ

/-- `VarianceSmileSection(Time, strikes, volatilities)`: the direct mode,
whose curve linearly interpolates the observations. -/
def VarianceSmileSection.fromSpreadPoints (timeToExpiry : ℚ)
    (strikes volatilities : List ℚ) : VarianceSmileSection :=
  { timeToExpiry := timeToExpiry, strikes := strikes, volatilities := volatilities,
    interpolation := fun strike => linearInterpEval strikes volatilities strike }

/-- The error message of the accuracy `QL_ENSURE`. -/
def accuracyMsg : String :=
  "VarianceSmileSection::VarianceSmileSection: accuracy not reached"

/-- `VarianceSmileSection(Time, forward, strikes, volatilities)`: the
calibrating mode.  It runs the external SABR fit (`calibrate`; `sabrCurve`
stands for the closed-form smile the fit induces, both modelled from the
spec) and then checks
`QL_ENSURE(sabrInterpolation->interpolationError() < 1e-4, ...)`. -/
def VarianceSmileSection.fromObservations (calibrate : Calibrator)
    (sabrCurve : SabrFit → ℚ → ℚ) (timeToExpiry forwardValue : ℚ)
    (strikes volatilities : List ℚ) : Except String VarianceSmileSection :=
  let fit := calibrate strikes volatilities timeToExpiry forwardValue
  if fit.error < sabrTolerance then
    .ok { timeToExpiry := timeToExpiry, strikes := strikes,
          volatilities := volatilities, interpolation := sabrCurve fit }
  else .error accuracyMsg

/-- `VarianceSmileSection(sabrParameters, strikes, timeToExpiry)`: the
parametric mode, building the closed-form SABR curve from five given
parameters with no fit and no accuracy check. -/
def VarianceSmileSection.fromSabrParameters (sabrCurve : SabrFit → ℚ → ℚ)
    (sabrParameters : List ℚ) (strikes : List ℚ) (timeToExpiry : ℚ) :
    VarianceSmileSection :=
  { timeToExpiry := timeToExpiry, strikes := strikes, volatilities := strikes,
    interpolation := sabrCurve
      ⟨sabrParameters.getD 0 0, sabrParameters.getD 1 0, sabrParameters.getD 2 0,
        sabrParameters.getD 3 0, 0⟩ }

/-- `VarianceSmileSection::operator()(strike)`: evaluates the stored curve at
the strike and returns `v * v * timeToExpiry_`. -/
def VarianceSmileSection.value (s : VarianceSmileSection) (strike : ℚ) : ℚ :=
  let v := s.interpolation strike
  v * v * s.timeToExpiry

/-- Modelled from the spec: `volatility(strike) -> real`, the raw value of the
stored curve (section 4.3; the member is declared in the header
`swaptionvolcube.hpp`, which is not among the sources). -/
def VarianceSmileSection.volatility (s : VarianceSmileSection) (strike : ℚ) : ℚ :=
  s.interpolation strike

/-! ## `SwaptionVolatilityCubeBySabr::sabrCalibration` -/

/-- Sequential effectful loop: `std::vector` traversal that stops at the
first thrown error, collecting the per-element results. -/
def mapExcept {α : Type} (f : ℕ → Except String α) : List ℕ → Except String (List α)
  | [] => .ok []
  | j :: t =>
    match f j with
    | .error e => .error e
    | .ok a =>
      match mapExcept f t with
      | .error e => .error e
      | .ok as => .ok (a :: as)

/-- The state of a `SwaptionVolatilityCubeBySabr` that `sabrCalibration`
reads: the constructor grids `exerciseTimes_`, `timeLengths_`, the strike
spreads, the external fair-forward-rate provider `atmStrike` (section 6), the
external SABR fit, and the member cube `marketVolCube_`. -/
structure SabrCubeState where
  exerciseTimes : List ℚ
  timeLengths : List ℚ
  strikeSpreads : List ℚ
  atmStrike : ℚ → ℚ → ℚ
  calibrate : Calibrator
  marketVolCube : Cube

/-- One node of the calibration loop: the ATM forward at the node, the
observation strikes `atmForward + strikeSpreads_[i]` and volatilities
`tmp[i][j][k]`, fed to the SABR fit. -/
def sabrNodeFit (st : SabrCubeState) (tmp : List Mat) (j k : ℕ) : SabrFit :=
  let atmForward := st.atmStrike (st.exerciseTimes.getD j 0) (st.timeLengths.getD k 0)
  let strikes := st.strikeSpreads.map (fun s => atmForward + s)
  let volatilities := (List.range st.strikeSpreads.length).map
    (fun i => matGet (tmp.getD i []) j k)
  st.calibrate strikes volatilities (st.exerciseTimes.getD j 0) atmForward

/-- The per-node fits of `sabrCalibration`, row by row, each checked by
`QL_ENSURE(sabrInterpolation->interpolationError() < 1e-4, ...)`.  As in the
source, the volatilities are read from the member `marketVolCube_` and the
loops run over the member grids. -/
def sabrCalibrationRows (st : SabrCubeState) : Except String (List (List SabrFit)) :=
  let tmp := st.marketVolCube.points
  mapExcept (fun j =>
      mapExcept (fun k =>
          let fit := sabrNodeFit st tmp j k
          if fit.error < sabrTolerance then .ok fit
          else .error accuracyMsg)
        (List.range st.timeLengths.length))
    (List.range st.exerciseTimes.length)

/-- `SwaptionVolatilityCubeBySabr::sabrCalibration(Cube& marketVolCube)`.
Note that the body reads `marketVolCube_.points()` — the member — and loops
over the member grids `exerciseTimes_` and `timeLengths_`; the parameter
`marketVolCube` is never read.  The fitted parameters and forwards are
assembled into a five-layer cube over the member grids. -/
def sabrCalibration (st : SabrCubeState) (marketVolCube : Cube) : Except String Cube :=
  match sabrCalibrationRows st with
  | .error e => .error e
  | .ok rows =>
    let alphas : Mat := rows.map (fun r => r.map (fun f => f.alpha))
    let betas : Mat := rows.map (fun r => r.map (fun f => f.beta))
    let nus : Mat := rows.map (fun r => r.map (fun f => f.nu))
    let rhos : Mat := rows.map (fun r => r.map (fun f => f.rho))
    let forwards : Mat := (List.range st.exerciseTimes.length).map (fun j =>
      (List.range st.timeLengths.length).map (fun k =>
        st.atmStrike (st.exerciseTimes.getD j 0) (st.timeLengths.getD k 0)))
    match Cube.construct st.exerciseTimes st.timeLengths 5 with
    | .error e => .error e
    | .ok c0 =>
      match c0.setLayer 0 alphas with
      | .error e => .error e
      | .ok c1 =>
        match c1.setLayer 1 betas with
        | .error e => .error e
        | .ok c2 =>
          match c2.setLayer 2 nus with
          | .error e => .error e
          | .ok c3 =>
            match c3.setLayer 3 rhos with
            | .error e => .error e
            | .ok c4 => c4.setLayer 4 forwards

/-- Whether an `Except` computation completed. -/
def exceptIsOk {α : Type} : Except String α → Bool
  | .ok _ => true
  | .error _ => false

/-- The message carried by a failed `Except` computation, or `""`. -/
def exceptErrMsg {α : Type} : Except String α → String
  | .ok _ => ""
  | .error e => e

/-! ## Construction-time validation of the cube facades

Both constructors run the same `QL_REQUIRE` sequence over the derived
exercise times, the derived time lengths, the strike spreads and the spread
matrix (the calendar and day-count arithmetic producing the time values is an
external collaborator; the checks take the derived values).  Only the two
matrix-dimension messages differ between the variants. -/

/-- Consecutive strict increase, as checked by the constructor loops. -/
def strictIncB : List ℚ → Bool
  | [] => true
  | [_] => true
  | a :: b :: t => decide (a < b) && strictIncB (b :: t)

/-- The `QL_REQUIRE` sequence of `SwaptionVolatilityCube::SwaptionVolatilityCube`
(the spread-interpolation variant). -/
def swaptionVolCubeChecks (exerciseTimes timeLengths strikeSpreads : List ℚ)
    (volSpreads : Mat) : Except String Unit :=
  if ¬ 0 < exerciseTimes.getD 0 0 then .error "first exercise time is negative"
  else if ¬ strictIncB exerciseTimes then .error "non increasing exercise times"
  else if ¬ 0 < timeLengths.getD 0 0 then .error "first time length is negative"
  else if ¬ strictIncB timeLengths then .error "non increasing time length"
  else if ¬ 1 < strikeSpreads.length then
    .error ("too few strikes (" ++ toString strikeSpreads.length ++ ")")
  else if ¬ strictIncB strikeSpreads then .error "non increasing strike spreads"
  else if ¬ strikeSpreads.length = matCols volSpreads then
    .error "nStrikes_!=volSpreads.columns()"
  else if ¬ exerciseTimes.length * timeLengths.length = matRows volSpreads then
    .error "nExercise*nlengths!=volSpreads.rows()"
  else .ok ()

/-- The `QL_REQUIRE` sequence of
`SwaptionVolatilityCubeBySabr::SwaptionVolatilityCubeBySabr` (the
SABR-calibrated variant): the same checks, with the matrix-dimension
messages naming `marketVolCube`. -/
def swaptionVolCubeBySabrChecks (exerciseTimes timeLengths strikeSpreads : List ℚ)
    (volSpreads : Mat) : Except String Unit :=
  if ¬ 0 < exerciseTimes.getD 0 0 then .error "first exercise time is negative"
  else if ¬ strictIncB exerciseTimes then .error "non increasing exercise times"
  else if ¬ 0 < timeLengths.getD 0 0 then .error "first time length is negative"
  else if ¬ strictIncB timeLengths then .error "non increasing time length"
  else if ¬ 1 < strikeSpreads.length then
    .error ("too few strikes (" ++ toString strikeSpreads.length ++ ")")
  else if ¬ strictIncB strikeSpreads then .error "non increasing strike spreads"
  else if ¬ strikeSpreads.length = matCols volSpreads then
    .error "nStrikes_!=marketVolCube.columns()"
  else if ¬ exerciseTimes.length * timeLengths.length = matRows volSpreads then
    .error "nExercise*nlengths!=marketVolCube.rows()"
  else .ok ()

/-- The validity condition the checks of both constructors decide: first
exercise time strictly positive and exercise times strictly increasing,
likewise for the time lengths, at least two strictly increasing strike
spreads, and a spread matrix of exactly `nExercise * nlengths` rows and
`nStrikes` columns. -/
def ValidCubeInputs (exerciseTimes timeLengths strikeSpreads : List ℚ)
    (volSpreads : Mat) : Prop :=
  0 < exerciseTimes.getD 0 0 ∧ exerciseTimes.Sorted (· < ·) ∧
    0 < timeLengths.getD 0 0 ∧ timeLengths.Sorted (· < ·) ∧
    1 < strikeSpreads.length ∧ strikeSpreads.Sorted (· < ·) ∧
    strikeSpreads.length = matCols volSpreads ∧
    exerciseTimes.length * timeLengths.length = matRows volSpreads

/-! ## The spread-interpolation variant `SwaptionVolatilityCube` -/

/-- The queryable state of the spread-interpolation variant: the grids, the
strike spreads, the per-strike spread matrices `volSpreads_[i]` (rows indexed
by exercise time, columns by time length, as filled by the constructor from
`volSpreads[j*nlengths+k][i]`), and the two external collaborators — the ATM
reference `atmVolStructure_->volatility(start, length, strike)` and the
fair-forward-rate provider behind `atmStrike`. -/
structure SwaptionVolatilityCube where
  exerciseTimes : List ℚ
  timeLengths : List ℚ
  strikeSpreads : List ℚ
  volSpreads : List Mat
  atmVol : ℚ → ℚ → ℚ → ℚ
  atmStrike : ℚ → ℚ → ℚ

/-- The constructor fill of `volSpreads_`:
`volSpreads_[i][j][k] = volSpreads[j*nlengths+k][i]`. -/
def volSpreadsOfMatrix (volSpreads : Mat) (nExercise nlengths nStrikes : ℕ) : List Mat :=
  (List.range nStrikes).map (fun i =>
    (List.range nExercise).map (fun j =>
      (List.range nlengths).map (fun k => matGet volSpreads (j * nlengths + k) i)))

/-- `volSpreadsInterpolator_[i](length, start)`: the bilinear surface built
over `(timeLengths_, exerciseTimes_)` from `volSpreads_[i]` (whose rows are
indexed by exercise time), with extrapolation enabled. -/
def SwaptionVolatilityCube.volSpreadInterp (c : SwaptionVolatilityCube) (i : ℕ)
    (len start : ℚ) : ℚ :=
  bilinearEval c.timeLengths c.exerciseTimes (c.volSpreads.getD i []) len start

/-- The strikes of `SwaptionVolatilityCube::smile(start, length)`:
`localStrikes_[i] = atmForward + strikeSpreads_[i]`. -/
def SwaptionVolatilityCube.smileStrikes (c : SwaptionVolatilityCube)
    (start len : ℚ) : List ℚ :=
  let atmForward := c.atmStrike start len
  (List.range c.strikeSpreads.length).map (fun i => atmForward + c.strikeSpreads.getD i 0)

/-- The volatilities of `SwaptionVolatilityCube::smile(start, length)`:
`localSmile_[i] = atmVol + volSpreadsInterpolator_[i](length, start)`. -/
def SwaptionVolatilityCube.smileVols (c : SwaptionVolatilityCube)
    (start len : ℚ) : List ℚ :=
  let atmForward := c.atmStrike start len
  let atmV := c.atmVol start len atmForward
  (List.range c.strikeSpreads.length).map (fun i => atmV + c.volSpreadInterp i len start)

/-- `SwaptionVolatilityCube::volatilityImpl(start, length, strike)`: evaluates
the linear interpolation returned by `smile` at the strike, with
extrapolation. -/
def SwaptionVolatilityCube.volatilityImpl (c : SwaptionVolatilityCube)
    (start len strike : ℚ) : ℚ :=
  linearInterpEval (c.smileStrikes start len) (c.smileVols start len) strike

/-! ## The bracketing index of `spreadVolInterpolation` -/

/-- The index selection applied to both axes by
`SwaptionVolatilityCubeBySabr::spreadVolInterpolation`:
`std::lower_bound`, then a decrement when the result is the last index of the
grid. -/
def bracketLowerIndex (xs : List ℚ) (x : ℚ) : ℕ :=
  let i := lowerBound xs x
  if i = xs.length - 1 then i - 1 else i

/-! ## The moneyness-preserving spread computation of `spreadVolInterpolation` -/

/-- One strike-offset step of `spreadVolInterpolation` (the body of the loop
over `k`), with the moneyness taken as given: from the four bracketing ATM
forwards and the four bracketing smile curves, build the 2x2 matrices
`strikes[i][j] = atmForwards[i][j] / moneyness` and
`spreadVols[i][j] = smiles[i][j](strikes[i][j]) - atmVols[i][j]` — where
`atmVols[i][j] = smiles[i][j](atmForwards[i][j])` — and bilinearly
interpolate the spreads at the target node, with extrapolation. -/
def spreadVolAtMoneyness (exercisesNodes lengthsNodes : List ℚ) (atmForwards : Mat)
    (smiles : ℕ → ℕ → ℚ → ℚ) (moneyness atmExerciseTime atmTimeLength : ℚ) : ℚ :=
  let atmVols : Mat := (List.range 2).map (fun i =>
    (List.range 2).map (fun j => smiles i j (matGet atmForwards i j)))
  let strikes : Mat := (List.range 2).map (fun i =>
    (List.range 2).map (fun j => matGet atmForwards i j / moneyness))
  let spreadVols : Mat := (List.range 2).map (fun i =>
    (List.range 2).map (fun j => smiles i j (matGet strikes i j) - matGet atmVols i j))
  bilinearEval exercisesNodes lengthsNodes spreadVols atmExerciseTime atmTimeLength

/-- The full strike-offset step as the source runs it: the absolute strike is
`atmForward + strikeSpread`, the moneyness `atmForward / strike`. -/
def spreadVolInterpolationStep (exercisesNodes lengthsNodes : List ℚ) (atmForwards : Mat)
    (smiles : ℕ → ℕ → ℚ → ℚ) (atmForward strikeSpread atmExerciseTime atmTimeLength : ℚ) : ℚ :=
  let strike := atmForward + strikeSpread
  let moneyness := atmForward / strike
  spreadVolAtMoneyness exercisesNodes lengthsNodes atmForwards smiles moneyness
    atmExerciseTime atmTimeLength

/-- Scaling of the four bracketing ATM forwards by a constant. -/
def matScale (lam : ℚ) (m : Mat) : Mat :=
  m.map (fun row => row.map (fun x => lam * x))

/-- The storage index of a pre-existing entry after an insertion at `n`. -/
def shiftIdx (n i : ℕ) : ℕ :=
  if i < n then i else i + 1

/-! ## Lemmas on searching and index maintenance -/

theorem lowerBound_le_length (l : List ℚ) (x : ℚ) : lowerBound l x ≤ l.length := by
  induction l with
  | nil => simp [lowerBound]
  | cons a t ih =>
    simp only [lowerBound, List.length_cons]
    split
    · omega
    · omega

theorem getD_lt_of_lt_lowerBound {l : List ℚ} {x : ℚ} {i : ℕ}
    (h : i < lowerBound l x) : l.getD i 0 < x := by
  induction l generalizing i with
  | nil => simp [lowerBound] at h
  | cons a t ih =>
    simp only [lowerBound] at h
    split at h
    · omega
    · cases i with
      | zero => simpa using lt_of_not_le (by assumption)
      | succ i => exact ih (by omega)

theorem le_getD_lowerBound {l : List ℚ} {x : ℚ}
    (h : lowerBound l x < l.length) : x ≤ l.getD (lowerBound l x) 0 := by
  induction l with
  | nil => simp [lowerBound] at h
  | cons a t ih =>
    by_cases hle : x ≤ a
    · simp [lowerBound, hle]
    · simp only [lowerBound, if_neg hle, List.getD_cons_succ]
      exact ih (by simp only [lowerBound, if_neg hle, List.length_cons] at h; omega)

theorem lowerBound_lt_length_of_mem {l : List ℚ} {x : ℚ} (h : x ∈ l) :
    lowerBound l x < l.length := by
  induction l with
  | nil => simp at h
  | cons a t ih =>
    simp only [lowerBound, List.length_cons]
    split
    · omega
    · rcases List.mem_cons.mp h with rfl | hmem
      · exact absurd le_rfl (by assumption)
      · exact Nat.succ_lt_succ (ih hmem)

theorem lowerBound_eq_length_of_forall_lt {l : List ℚ} {x : ℚ}
    (h : ∀ y ∈ l, y < x) : lowerBound l x = l.length := by
  induction l with
  | nil => simp [lowerBound]
  | cons a t ih =>
    have ha : a < x := h a (by simp)
    simp only [lowerBound, List.length_cons, if_neg (not_le.mpr ha)]
    exact congrArg (· + 1) (ih (fun y hy => h y (by simp [hy])))

theorem lowerBound_eq_of_sorted {l : List ℚ} {x : ℚ} {i : ℕ}
    (hs : l.Sorted (· < ·)) (hi : i < l.length) (hx : l.getD i 0 = x) :
    lowerBound l x = i := by
  induction l generalizing i with
  | nil => simp at hi
  | cons a t ih =>
    obtain ⟨hall, hst⟩ := List.sorted_cons.mp hs
    cases i with
    | zero =>
      simp only [List.getD_cons_zero] at hx
      simp [lowerBound, hx.symm.le]
    | succ i =>
      simp only [List.getD_cons_succ] at hx
      have hi' : i < t.length := by simpa using hi
      have hxt : x ∈ t := by
        rw [← hx, List.getD_eq_getElem t 0 hi']
        exact List.getElem_mem hi'
      have hax : a < x := hall x hxt
      simp only [lowerBound, if_neg (not_le.mpr hax)]
      exact congrArg (· + 1) (ih hst hi' hx)

theorem sorted_insertIdx_lowerBound {l : List ℚ} {x : ℚ}
    (hs : l.Sorted (· < ·)) (hx : x ∉ l) :
    (l.insertIdx (lowerBound l x) x).Sorted (· < ·) := by
  induction l with
  | nil => simp [lowerBound]
  | cons a t ih =>
    obtain ⟨hall, hst⟩ := List.sorted_cons.mp hs
    by_cases hle : x ≤ a
    · have hxa : x < a := lt_of_le_of_ne hle (fun h => hx (by simp [h]))
      simp only [lowerBound, if_pos hle, List.insertIdx_zero]
      exact List.sorted_cons.mpr
        ⟨fun b hb => by
          rcases List.mem_cons.mp hb with rfl | hbt
          · exact hxa
          · exact lt_trans hxa (hall b hbt), hs⟩
    · simp only [lowerBound, if_neg hle, List.insertIdx_succ_cons]
      refine List.sorted_cons.mpr ⟨fun b hb => ?_, ih hst (fun h => hx (by simp [h]))⟩
      rcases (List.mem_insertIdx (lowerBound_le_length t x)).mp hb with rfl | hbt
      · exact lt_of_not_le hle
      · exact hall b hbt

theorem set_insertIdx (l : List ℚ) (i : ℕ) (a b : ℚ) (h : i ≤ l.length) :
    (l.insertIdx i a).set i b = l.insertIdx i b := by
  induction i generalizing l with
  | zero => simp
  | succ i ih =>
    cases l with
    | nil => simp at h
    | cons c t =>
      simp only [List.insertIdx_succ_cons, List.set_cons_succ]
      exact congrArg (c :: ·) (ih t (by simpa using h))

theorem set_getD_self {l : List ℚ} {i : ℕ} {a : ℚ}
    (hi : i < l.length) (ha : l.getD i 0 = a) : l.set i a = l := by
  induction l generalizing i with
  | nil => simp at hi
  | cons c t ih =>
    cases i with
    | zero => simp_all
    | succ i =>
      simp only [List.getD_cons_succ] at ha
      simp only [List.set_cons_succ]
      exact congrArg (c :: ·) (ih (by simpa using hi) ha)

theorem getD_set_self {α : Type} (l : List α) (i : ℕ) (a d : α) (h : i < l.length) :
    (l.set i a).getD i d = a := by
  rw [List.getD_eq_getElem?_getD, List.getElem?_set_eq_of_lt a h]
  rfl

theorem getD_set_ne {α : Type} (l : List α) (i j : ℕ) (a d : α) (h : j ≠ i) :
    (l.set i a).getD j d = l.getD j d := by
  rw [List.getD_eq_getElem?_getD, List.getD_eq_getElem?_getD,
    List.getElem?_set_ne (fun hh => h hh.symm)]

theorem getD_insertIdx_of_lt {α : Type} {l : List α} {n k : ℕ} {x d : α}
    (hn : n ≤ l.length) (h1 : k < n) (h2 : k < l.length) :
    (l.insertIdx n x).getD k d = l.getD k d := by
  rw [List.getD_eq_getElem _ d (by rw [List.length_insertIdx n l hn]; omega),
    List.getD_eq_getElem _ d h2]
  exact List.getElem_insertIdx_of_lt l x n k h1 h2

theorem getD_insertIdx_self {α : Type} {l : List α} {n : ℕ} {x d : α} (hn : n ≤ l.length) :
    (l.insertIdx n x).getD n d = x := by
  rw [List.getD_eq_getElem _ d (by rw [List.length_insertIdx n l hn]; omega)]
  exact List.getElem_insertIdx_self l x n hn

theorem getD_insertIdx_succ {α : Type} {l : List α} {n k : ℕ} {x d : α}
    (hn : n ≤ k) (hk : k < l.length) :
    (l.insertIdx n x).getD (k + 1) d = l.getD k d := by
  obtain ⟨m, rfl⟩ : ∃ m, k = n + m := ⟨k - n, by omega⟩
  rw [List.getD_eq_getElem _ d
      (by rw [List.length_insertIdx n l (by omega)]; omega),
    List.getD_eq_getElem _ d hk]
  exact List.getElem_insertIdx_add_succ l x n m hk

theorem getD_insertIdx_shift {α : Type} {l : List α} {n i : ℕ} {x d : α}
    (hn : n ≤ l.length) (hi : i < l.length) :
    (l.insertIdx n x).getD (shiftIdx n i) d = l.getD i d := by
  unfold shiftIdx
  split
  · exact getD_insertIdx_of_lt hn (by assumption) hi
  · exact getD_insertIdx_succ (by omega) hi

theorem getD_range_map {α : Type} (n k : ℕ) (f : ℕ → α) (d : α) (h : k < n) :
    ((List.range n).map f).getD k d = f k := by
  rw [List.getD_eq_getElem ((List.range n).map f) d (by simpa using h)]
  simp

theorem getD_range_map_ge {α : Type} (n k : ℕ) (f : ℕ → α) (d : α) (h : n ≤ k) :
    ((List.range n).map f).getD k d = d := by
  rw [List.getD_eq_getElem?_getD, List.getElem?_eq_none (by simpa using h)]
  rfl

theorem getD_append_left {α : Type} (l1 l2 : List α) (n : ℕ) (d : α)
    (h : n < l1.length) : (l1 ++ l2).getD n d = l1.getD n d := by
  simp [List.getD_eq_getElem?_getD, List.getElem?_append_left h]

theorem getD_eq_default_of_le {α : Type} (l : List α) (n : ℕ) (d : α)
    (h : l.length ≤ n) : l.getD n d = d := by
  rw [List.getD_eq_getElem?_getD, List.getElem?_eq_none h]
  rfl

theorem matGet_matSet_ne {m : Mat} {iW jW i j : ℕ} {v : ℚ}
    (h : i ≠ iW ∨ j ≠ jW) : matGet (matSet m iW jW v) i j = matGet m i j := by
  unfold matGet matSet
  rcases h with h | h
  · rw [getD_set_ne _ _ _ _ _ h]
  · by_cases hij : i = iW
    · subst hij
      by_cases hlen : i < m.length
      · rw [getD_set_self _ _ _ _ hlen, getD_set_ne _ _ _ _ _ h]
      · rw [List.set_eq_of_length_le (by omega)]
    · rw [getD_set_ne _ _ _ _ _ hij]

theorem matGet_zero_entries {m : Mat} (h : ∀ row ∈ m, ∀ x ∈ row, x = 0)
    (i j : ℕ) : matGet m i j = 0 := by
  unfold matGet
  by_cases hi : i < m.length
  · have hrow : m.getD i [] ∈ m := by
      rw [List.getD_eq_getElem _ _ hi]
      exact List.getElem_mem hi
    by_cases hj : j < (m.getD i []).length
    · exact h _ hrow _ (by
        rw [List.getD_eq_getElem _ _ hj]
        exact List.getElem_mem hj)
    · exact getD_eq_default_of_le _ _ _ (by omega)
  · rw [getD_eq_default_of_le m i [] (by omega)]
    rfl

theorem mapExcept_isOk_iff {α : Type} (f : ℕ → Except String α) (l : List ℕ) :
    exceptIsOk (mapExcept f l) = true ↔ ∀ n ∈ l, exceptIsOk (f n) = true := by
  induction l with
  | nil => simp [mapExcept, exceptIsOk]
  | cons j t ih =>
    constructor
    · intro h n hn
      cases hj : f j with
      | error e => simp [mapExcept, hj, exceptIsOk] at h
      | ok a =>
        cases ht : mapExcept f t with
        | error e => simp [mapExcept, hj, ht, exceptIsOk] at h
        | ok as =>
          rcases List.mem_cons.mp hn with rfl | hnt
          · simp [hj, exceptIsOk]
          · exact (ih.mp (by simp [exceptIsOk, ht])) n hnt
    · intro h
      have hj0 := h j (by simp)
      cases hjv : f j with
      | error e => simp [hjv, exceptIsOk] at hj0
      | ok a =>
        have ht : exceptIsOk (mapExcept f t) = true :=
          ih.mpr (fun n hn => h n (by simp [hn]))
        cases htv : mapExcept f t with
        | error e => simp [htv, exceptIsOk] at ht
        | ok as => simp [mapExcept, hjv, htv, exceptIsOk]

theorem mapExcept_error_mem {α : Type} {f : ℕ → Except String α} {l : List ℕ}
    {e : String} (h : mapExcept f l = .error e) : ∃ n ∈ l, f n = .error e := by
  induction l with
  | nil => simp [mapExcept] at h
  | cons j t ih =>
    simp only [mapExcept] at h
    cases hj : f j with
    | error e' =>
      rw [hj] at h
      obtain rfl : e' = e := by simpa using h
      exact ⟨j, by simp, hj⟩
    | ok a =>
      rw [hj] at h
      cases ht : mapExcept f t with
      | error e' =>
        rw [ht] at h
        obtain rfl : e' = e := by simpa using h
        obtain ⟨n, hn, hfn⟩ := ih ht
        exact ⟨n, by simp [hn], hfn⟩
      | ok as => rw [ht] at h; cases h

theorem wf_layer_dims {c : Cube} (hw : c.WellFormed) {k : ℕ} (hk : k < c.nLayers) :
    (c.points.getD k []).length = c.expiries.length ∧
      ∀ row ∈ c.points.getD k [], row.length = c.lengths.length := by
  have hk' : k < c.points.length := by rw [hw.2.2.1]; exact hk
  have hmem : c.points.getD k [] ∈ c.points := by
    rw [List.getD_eq_getElem _ _ hk']
    exact List.getElem_mem hk'
  exact hw.2.2.2 _ hmem

theorem sorted_getD_lt {l : List ℚ} (hs : l.Sorted (· < ·)) {i j : ℕ}
    (hij : i < j) (hj : j < l.length) : l.getD i 0 < l.getD j 0 := by
  rw [List.getD_eq_getElem _ _ (lt_trans hij hj), List.getD_eq_getElem _ _ hj]
  exact (List.pairwise_iff_getElem.mp hs) i j (lt_trans hij hj) hj hij

theorem getD_lowerBound_of_mem {l : List ℚ} {x : ℚ}
    (hs : l.Sorted (· < ·)) (h : x ∈ l) : l.getD (lowerBound l x) 0 = x := by
  obtain ⟨i, hi, hx⟩ := List.mem_iff_getElem.mp h
  have hgd : l.getD i 0 = x := by rw [List.getD_eq_getElem _ _ hi]; exact hx
  rw [lowerBound_eq_of_sorted hs hi hgd]
  exact hgd

/-! ## The claims -/

/-- C6: for every smile section and every strike, the variance-style query
`VarianceSmileSection::operator()(strike)` returns exactly the interpolated
volatility at that strike, squared and multiplied by the time to expiry of
the section: `interpolation(strike)^2 * timeToExpiry`. -/
theorem varianceSmileSection_value_eq_sq_mul_time (s : VarianceSmileSection)
    (strike : ℚ) :
    s.value strike = (s.interpolation strike) ^ 2 * s.timeToExpiry := by
  unfold VarianceSmileSection.value
  ring

/-- C3 (refuting): `sabrCalibration` does not depend on the cube passed to
it — the body reads the member `marketVolCube_.points()` and loops over the
member grids — so `denseParameters_ = sabrCalibration(volCubeAtmCalibrated_)`
is not calibrated against the volatilities of the densified cube: whatever
cube is passed, the result is the calibration of the member `marketVolCube_`
over the sparse grids, node for node identical to `sparseParameters_`. -/
theorem sabrCalibration_ignores_argument (st : SabrCubeState) (c1 c2 : Cube) :
    sabrCalibration st c1 = sabrCalibration st c2 := rfl

/-- C5: in the moneyness-preserving spread computation, scaling all four
bracketing ATM forwards by the same positive constant, while holding the
moneyness and the moneyness profiles of the four bracketing smiles fixed
(each bracketing smile being anchored at its own forward, with curve
`strike ↦ g i j (forward / strike)`), leaves the interpolated spread
unchanged.  The target forward enters the per-offset step only through the
moneyness, which is held fixed. -/
theorem spreadVolAtMoneyness_scale_invariant (exercisesNodes lengthsNodes : List ℚ)
    (F : Mat) (g : ℕ → ℕ → ℚ → ℚ) (lam m e t : ℚ)
    (hlam : 0 < lam) (hm : m ≠ 0)
    (hF : ∀ i < 2, ∀ j < 2, matGet F i j ≠ 0) :
    spreadVolAtMoneyness exercisesNodes lengthsNodes (matScale lam F)
        (fun i j s => g i j (matGet (matScale lam F) i j / s)) m e t =
      spreadVolAtMoneyness exercisesNodes lengthsNodes F
        (fun i j s => g i j (matGet F i j / s)) m e t := by
  have hscale : ∀ i j : ℕ, matGet (matScale lam F) i j = lam * matGet F i j := by
    intro i j
    unfold matGet matScale
    rw [List.getD_eq_getElem?_getD, List.getD_eq_getElem?_getD, List.getElem?_map]
    cases hFi : F[i]? with
    | none => simp [hFi]
    | some row =>
      simp only [hFi, Option.map_some', Option.getD_some]
      rw [List.getD_eq_getElem?_getD, List.getD_eq_getElem?_getD, List.getElem?_map]
      cases hRj : row[j]? with
      | none => simp [hFi, hRj]
      | some v => simp [hFi, hRj]
  have hmat2 : ∀ (f : ℕ → ℕ → ℚ) (i j : ℕ), i < 2 → j < 2 →
      matGet ((List.range 2).map (fun i => (List.range 2).map (fun j => f i j))) i j
        = f i j := by
    intro f i j hi hj
    unfold matGet
    rw [getD_range_map _ _ _ _ hi, getD_range_map _ _ _ _ hj]
  have key : ∀ X : ℚ, X ≠ 0 → X / (X / m) = m := by
    intro X hX
    field_simp
  dsimp only [spreadVolAtMoneyness]
  congr 1
  apply List.map_congr_left
  intro i hi
  apply List.map_congr_left
  intro j hj
  have hi2 : i < 2 := List.mem_range.mp hi
  have hj2 : j < 2 := List.mem_range.mp hj
  have ha : matGet F i j ≠ 0 := hF i hi2 j hj2
  have hA : matGet (matScale lam F) i j ≠ 0 := by
    rw [hscale]
    exact mul_ne_zero (ne_of_gt hlam) ha
  rw [hmat2 _ _ _ hi2 hj2, hmat2 _ _ _ hi2 hj2, hmat2 _ _ _ hi2 hj2,
    hmat2 _ _ _ hi2 hj2]
  rw [key _ hA, key _ ha, div_self hA, div_self ha]

/-- C4 (refuting at a concrete input): for the sparse grid `[1, 2, 5, 9]` and
the interior target `3`, the selected lower index is `2`, whose grid value
`5` exceeds the target — the `lower_bound` result is used directly as the
lower bracketing index, so for a target strictly inside an interior interval
both bracket values exceed it. -/
theorem bracketLowerIndex_not_below_target :
    bracketLowerIndex [1, 2, 5, 9] 3 = 2 ∧
      ¬ ([(1 : ℚ), 2, 5, 9].getD (bracketLowerIndex [1, 2, 5, 9] 3) 0 ≤ 3) := by
  constructor
  · decide
  · decide

/-- C4 (amended): the selected lower index is the least index whose grid
value is at least the target, decremented to the second-to-last index when it
would be the last; consequently, for a target not exceeding the last grid
value, the upper neighbour exists and its grid value is at least the target,
while the lower grid value is at most the target exactly when the target
occurs in the grid or lies in the last grid interval — for a target strictly
inside an earlier interval both bracket values exceed it. -/
theorem bracketLowerIndex_spec (xs : List ℚ) (x : ℚ)
    (hs : xs.Sorted (· < ·)) (hn : 2 ≤ xs.length)
    (hx : x ≤ xs.getD (xs.length - 1) 0) :
    bracketLowerIndex xs x + 1 < xs.length ∧
      x ≤ xs.getD (bracketLowerIndex xs x + 1) 0 ∧
      ((x ∈ xs ∨ xs.getD (xs.length - 2) 0 < x) →
        xs.getD (bracketLowerIndex xs x) 0 ≤ x) := by
  have hlen := lowerBound_le_length xs x
  have hlb : lowerBound xs x ≤ xs.length - 1 := by
    by_contra hcon
    have hlast : xs.getD (xs.length - 1) 0 < x :=
      getD_lt_of_lt_lowerBound (by omega)
    exact absurd hx (not_le.mpr hlast)
  unfold bracketLowerIndex
  by_cases hcase : lowerBound xs x = xs.length - 1
  · rw [if_pos hcase]
    refine ⟨by omega, ?_, ?_⟩
    · have hidx : lowerBound xs x - 1 + 1 = xs.length - 1 := by omega
      rw [hidx]
      exact hx
    · intro hmem
      have hstep : xs.getD (xs.length - 2) 0 < xs.getD (xs.length - 1) 0 :=
        sorted_getD_lt hs (by omega) (by omega)
      have hidx2 : lowerBound xs x - 1 = xs.length - 2 := by omega
      rcases hmem with hmem | hgt
      · have hval : xs.getD (lowerBound xs x) 0 = x := getD_lowerBound_of_mem hs hmem
        rw [hidx2]
        rw [hcase] at hval
        exact le_of_lt (hval ▸ hstep)
      · rw [hidx2]
        exact le_of_lt hgt
  · rw [if_neg hcase]
    have hlt : lowerBound xs x < xs.length - 1 := by omega
    refine ⟨by omega, ?_, ?_⟩
    · have hle : x ≤ xs.getD (lowerBound xs x) 0 := le_getD_lowerBound (by omega)
      exact le_trans hle (le_of_lt (sorted_getD_lt hs (Nat.lt_succ_self _) (by omega)))
    · intro hmem
      rcases hmem with hmem | hgt
      · exact le_of_eq (getD_lowerBound_of_mem hs hmem)
      · rcases Nat.lt_or_ge (lowerBound xs x) (xs.length - 2) with hc | hc
        · exact le_of_lt (lt_trans (sorted_getD_lt hs hc (by omega)) hgt)
        · have heq : lowerBound xs x = xs.length - 2 := by omega
          rw [heq]
          exact le_of_lt hgt

theorem strictIncB_iff_sorted (l : List ℚ) :
    strictIncB l = true ↔ l.Sorted (· < ·) := by
  induction l with
  | nil => simp [strictIncB]
  | cons a t ih =>
    cases t with
    | nil => simp [strictIncB]
    | cons b t2 =>
      simp only [strictIncB, Bool.and_eq_true, decide_eq_true_eq]
      rw [ih]
      constructor
      · rintro ⟨hab, hst⟩
        refine List.sorted_cons.mpr ⟨?_, hst⟩
        intro c hc
        rcases List.mem_cons.mp hc with rfl | hct
        · exact hab
        · exact lt_trans hab ((List.sorted_cons.mp hst).1 c hct)
      · intro hst
        obtain ⟨hall, hst'⟩ := List.sorted_cons.mp hst
        exact ⟨hall b (by simp), hst'⟩

set_option maxHeartbeats 2000000 in
/-- C7: the construction-time validation of both cube facades decides exactly
the validity conditions of the spec — first exercise time strictly positive,
exercise times strictly increasing, likewise for the time lengths, at least
two strictly increasing strike offsets, and exact spread-matrix dimensions —
and any failure carries the message of one of those checks (no other error is
raised), so construction with valid inputs raises none of them. -/
theorem swaptionVolCube_construction_validation
    (exerciseTimes timeLengths strikeSpreads : List ℚ) (volSpreads : Mat) :
    (swaptionVolCubeChecks exerciseTimes timeLengths strikeSpreads volSpreads = .ok () ↔
        ValidCubeInputs exerciseTimes timeLengths strikeSpreads volSpreads) ∧
      (swaptionVolCubeBySabrChecks exerciseTimes timeLengths strikeSpreads volSpreads
          = .ok () ↔
        ValidCubeInputs exerciseTimes timeLengths strikeSpreads volSpreads) ∧
      exceptErrMsg (swaptionVolCubeChecks exerciseTimes timeLengths strikeSpreads volSpreads)
        ∈ ["", "first exercise time is negative", "non increasing exercise times",
            "first time length is negative", "non increasing time length",
            "too few strikes (" ++ toString strikeSpreads.length ++ ")",
            "non increasing strike spreads", "nStrikes_!=volSpreads.columns()",
            "nExercise*nlengths!=volSpreads.rows()"] ∧
      exceptErrMsg
          (swaptionVolCubeBySabrChecks exerciseTimes timeLengths strikeSpreads volSpreads)
        ∈ ["", "first exercise time is negative", "non increasing exercise times",
            "first time length is negative", "non increasing time length",
            "too few strikes (" ++ toString strikeSpreads.length ++ ")",
            "non increasing strike spreads", "nStrikes_!=marketVolCube.columns()",
            "nExercise*nlengths!=marketVolCube.rows()"] := by
  refine ⟨?_, ?_, ?_, ?_⟩
  · constructor
    · intro h
      unfold swaptionVolCubeChecks at h
      split_ifs at h with h1 h2 h3 h4 h5 h6 h7 h8
      first
      | exact ⟨h1, (strictIncB_iff_sorted _).mp h2, h3,
          (strictIncB_iff_sorted _).mp h4, h5, (strictIncB_iff_sorted _).mp h6, h7, h8⟩
      | simp at h
    · intro hv
      obtain ⟨v1, v2, v3, v4, v5, v6, v7, v8⟩ := hv
      unfold swaptionVolCubeChecks
      rw [if_neg (not_not.mpr v1),
        if_neg (not_not.mpr ((strictIncB_iff_sorted _).mpr v2)),
        if_neg (not_not.mpr v3),
        if_neg (not_not.mpr ((strictIncB_iff_sorted _).mpr v4)),
        if_neg (not_not.mpr v5),
        if_neg (not_not.mpr ((strictIncB_iff_sorted _).mpr v6)),
        if_neg (not_not.mpr v7), if_neg (not_not.mpr v8)]
  · constructor
    · intro h
      unfold swaptionVolCubeBySabrChecks at h
      split_ifs at h with h1 h2 h3 h4 h5 h6 h7 h8
      first
      | exact ⟨h1, (strictIncB_iff_sorted _).mp h2, h3,
          (strictIncB_iff_sorted _).mp h4, h5, (strictIncB_iff_sorted _).mp h6, h7, h8⟩
      | simp at h
    · intro hv
      obtain ⟨v1, v2, v3, v4, v5, v6, v7, v8⟩ := hv
      unfold swaptionVolCubeBySabrChecks
      rw [if_neg (not_not.mpr v1),
        if_neg (not_not.mpr ((strictIncB_iff_sorted _).mpr v2)),
        if_neg (not_not.mpr v3),
        if_neg (not_not.mpr ((strictIncB_iff_sorted _).mpr v4)),
        if_neg (not_not.mpr v5),
        if_neg (not_not.mpr ((strictIncB_iff_sorted _).mpr v6)),
        if_neg (not_not.mpr v7), if_neg (not_not.mpr v8)]
  · unfold swaptionVolCubeChecks
    split_ifs
    · exact List.Mem.head _
    · exact List.Mem.tail _ (List.Mem.tail _ (List.Mem.tail _ (List.Mem.tail _
        (List.Mem.tail _ (List.Mem.tail _ (List.Mem.tail _ (List.Mem.tail _
          (List.Mem.head _))))))))
    · exact List.Mem.tail _ (List.Mem.tail _ (List.Mem.tail _ (List.Mem.tail _
        (List.Mem.tail _ (List.Mem.tail _ (List.Mem.tail _ (List.Mem.head _)))))))
    · exact List.Mem.tail _ (List.Mem.tail _ (List.Mem.tail _ (List.Mem.tail _
        (List.Mem.tail _ (List.Mem.tail _ (List.Mem.head _))))))
    · exact List.Mem.tail _ (List.Mem.tail _ (List.Mem.tail _ (List.Mem.tail _
        (List.Mem.tail _ (List.Mem.head _)))))
    · exact List.Mem.tail _ (List.Mem.tail _ (List.Mem.tail _ (List.Mem.tail _
        (List.Mem.head _))))
    · exact List.Mem.tail _ (List.Mem.tail _ (List.Mem.tail _ (List.Mem.head _)))
    · exact List.Mem.tail _ (List.Mem.tail _ (List.Mem.head _))
    · exact List.Mem.tail _ (List.Mem.head _)
  · unfold swaptionVolCubeBySabrChecks
    split_ifs
    · exact List.Mem.head _
    · exact List.Mem.tail _ (List.Mem.tail _ (List.Mem.tail _ (List.Mem.tail _
        (List.Mem.tail _ (List.Mem.tail _ (List.Mem.tail _ (List.Mem.tail _
          (List.Mem.head _))))))))
    · exact List.Mem.tail _ (List.Mem.tail _ (List.Mem.tail _ (List.Mem.tail _
        (List.Mem.tail _ (List.Mem.tail _ (List.Mem.tail _ (List.Mem.head _)))))))
    · exact List.Mem.tail _ (List.Mem.tail _ (List.Mem.tail _ (List.Mem.tail _
        (List.Mem.tail _ (List.Mem.tail _ (List.Mem.head _))))))
    · exact List.Mem.tail _ (List.Mem.tail _ (List.Mem.tail _ (List.Mem.tail _
        (List.Mem.tail _ (List.Mem.head _)))))
    · exact List.Mem.tail _ (List.Mem.tail _ (List.Mem.tail _ (List.Mem.tail _
        (List.Mem.head _))))
    · exact List.Mem.tail _ (List.Mem.tail _ (List.Mem.tail _ (List.Mem.head _)))
    · exact List.Mem.tail _ (List.Mem.tail _ (List.Mem.head _))
    · exact List.Mem.tail _ (List.Mem.head _)

/-- C9: `setPoint` cannot append beyond the last grid line.  When the new
expiry is strictly greater than every expiry in the grid, the insertion index
located by `lower_bound` is the grid size, and the `expandLayers` precondition
`i < expiries_.size()` fails; when the expiry does not exceed the grid
(whether already present or new and interior, so the expiry index is valid)
but the length is strictly greater than every grid length,
`j < lengths_.size()` fails.  Either way the call raises the corresponding
`expandLayers` error instead of growing the grid. -/
theorem setPoint_beyond_grid_error (c : Cube) (e1 t1 : ℚ) (point : List ℚ) :
    ((∀ x ∈ c.expiries, x < e1) →
        c.setPoint e1 t1 point = .error "Cube::expandLayers: incompatible size 1") ∧
      ((∃ x ∈ c.expiries, e1 ≤ x) → (∀ y ∈ c.lengths, y < t1) →
        c.setPoint e1 t1 point = .error "Cube::expandLayers: incompatible size 2") := by
  constructor
  · intro h1
    have hmem : e1 ∉ c.expiries := fun hm => lt_irrefl e1 (h1 e1 hm)
    have hbs : binarySearch c.expiries e1 = false := by
      simp [binarySearch, hmem]
    have hlb : lowerBound c.expiries e1 = c.expiries.length :=
      lowerBound_eq_length_of_forall_lt h1
    unfold Cube.setPoint
    rw [hbs, hlb]
    unfold Cube.expandLayers
    simp
  · intro hex h2
    have hmemL : t1 ∉ c.lengths := fun hm => lt_irrefl t1 (h2 t1 hm)
    have hbsL : binarySearch c.lengths t1 = false := by
      simp [binarySearch, hmemL]
    have hlbE : lowerBound c.expiries e1 < c.expiries.length := by
      obtain ⟨x0, hx0, hle⟩ := hex
      by_contra hcon
      push_neg at hcon
      obtain ⟨i, hi, hxi⟩ := List.mem_iff_getElem.mp hx0
      have hlt : c.expiries.getD i 0 < e1 := getD_lt_of_lt_lowerBound (by omega)
      rw [List.getD_eq_getElem _ _ hi, hxi] at hlt
      exact absurd hle (not_le.mpr hlt)
    have hlbL : lowerBound c.lengths t1 = c.lengths.length :=
      lowerBound_eq_length_of_forall_lt h2
    by_cases hmemE : e1 ∈ c.expiries
    · have hbsE : binarySearch c.expiries e1 = true := by
        simp [binarySearch, hmemE]
      unfold Cube.setPoint
      rw [hbsE, hbsL, hlbL]
      unfold Cube.expandLayers
      simp [hlbE]
    · have hbsE : binarySearch c.expiries e1 = false := by
        simp [binarySearch, hmemE]
      unfold Cube.setPoint
      rw [hbsE, hbsL, hlbL]
      unfold Cube.expandLayers
      simp [hlbE]

/-- The interval index of the extrapolating interpolation stays at most two
short of the grid size. -/
theorem locateIdx_le (xs : List ℚ) (x : ℚ) : locateIdx xs x ≤ xs.length - 2 :=
  min_le_right _ _

/-- Linear interpolation of a constant list of values returns that value. -/
theorem linearInterpEval_const (xs : List ℚ) (n : ℕ) (v x : ℚ)
    (hn : 2 ≤ n) (hxs : xs.length = n) :
    linearInterpEval xs ((List.range n).map (fun _ => v)) x = v := by
  dsimp only [linearInterpEval]
  have hj : locateIdx xs x ≤ n - 2 := by
    have := locateIdx_le xs x
    omega
  rw [getD_range_map n (locateIdx xs x) _ _ (by omega),
    getD_range_map n (locateIdx xs x + 1) _ _ (by omega)]
  simp

/-- C8: for the spread-interpolation cube with an all-zero volatility-spread
matrix, the query at the ATM strike returns exactly the volatility of the ATM
reference at the ATM forward — zero spreads make the cube an exact ATM
passthrough. -/
theorem volatilityImpl_atm_passthrough_of_zero_spreads (c : SwaptionVolatilityCube)
    (start len : ℚ) (hn : 2 ≤ c.strikeSpreads.length)
    (hz : ∀ m ∈ c.volSpreads, ∀ row ∈ m, ∀ x ∈ row, x = 0) :
    c.volatilityImpl start len (c.atmStrike start len) =
      c.atmVol start len (c.atmStrike start len) := by
  have hmat : ∀ i a b : ℕ, matGet (c.volSpreads.getD i []) a b = 0 := by
    intro i a b
    by_cases hi : i < c.volSpreads.length
    · refine matGet_zero_entries (hz _ ?_) a b
      rw [List.getD_eq_getElem _ _ hi]
      exact List.getElem_mem hi
    · rw [getD_eq_default_of_le _ _ _ (by omega)]
      exact matGet_zero_entries (by simp) a b
  have hzero : ∀ i : ℕ, c.volSpreadInterp i len start = 0 := by
    intro i
    dsimp only [SwaptionVolatilityCube.volSpreadInterp, bilinearEval]
    rw [hmat, hmat, hmat, hmat]
    ring
  have hvols : c.smileVols start len =
      (List.range c.strikeSpreads.length).map
        (fun _ => c.atmVol start len (c.atmStrike start len)) := by
    unfold SwaptionVolatilityCube.smileVols
    exact List.map_congr_left (fun i _ => by rw [hzero i, add_zero])
  unfold SwaptionVolatilityCube.volatilityImpl
  rw [hvols]
  exact linearInterpEval_const _ _ _ _ hn (by simp [SwaptionVolatilityCube.smileStrikes])

theorem mapExcept_eq_error {α : Type} {f : ℕ → Except String α} {l : List ℕ}
    {M : String} (hall : ∀ n msg, f n = .error msg → msg = M)
    {n0 : ℕ} (hn0 : n0 ∈ l) (hf : f n0 = .error M) :
    mapExcept f l = .error M := by
  induction l with
  | nil => simp at hn0
  | cons j t ih =>
    simp only [mapExcept]
    cases hj : f j with
    | error e => rw [hall j e hj]
    | ok a =>
      rcases List.mem_cons.mp hn0 with rfl | hnt
      · rw [hj] at hf
        cases hf
      · rw [ih hnt]

/-- C1: every grid node submitted to SABR calibration is accuracy-checked.
In the sparse pass (`sabrCalibration`): if the calibration completes, the
residual root-mean-square error of the node `(j, k)` fit is below the `1e-4`
tolerance (hence at most `1e-4`); if that residual is not below the
tolerance, the pass raises the accuracy error instead of returning the
parameters.  Likewise for the calibrating smile-section constructor. -/
theorem sabr_calibration_accuracy (st : SabrCubeState) (mc : Cube) (j k : ℕ)
    (cal : Calibrator) (curve : SabrFit → ℚ → ℚ) (tte fwd : ℚ) (ks vs : List ℚ)
    (hj : j < st.exerciseTimes.length) (hk : k < st.timeLengths.length) :
    (exceptIsOk (sabrCalibration st mc) = true →
        (sabrNodeFit st st.marketVolCube.points j k).error ≤ sabrTolerance) ∧
      (¬ (sabrNodeFit st st.marketVolCube.points j k).error < sabrTolerance →
        sabrCalibration st mc = .error accuracyMsg) ∧
      (exceptIsOk (VarianceSmileSection.fromObservations cal curve tte fwd ks vs) = true →
        (cal ks vs tte fwd).error ≤ sabrTolerance) ∧
      (¬ (cal ks vs tte fwd).error < sabrTolerance →
        VarianceSmileSection.fromObservations cal curve tte fwd ks vs
          = .error accuracyMsg) := by
  refine ⟨?_, ?_, ?_, ?_⟩
  · intro hok
    have hrows : exceptIsOk (sabrCalibrationRows st) = true := by
      unfold sabrCalibration at hok
      cases hr : sabrCalibrationRows st with
      | error e => rw [hr] at hok; simp [exceptIsOk] at hok
      | ok rows => simp [exceptIsOk]
    unfold sabrCalibrationRows at hrows
    have houter := (mapExcept_isOk_iff _ _).mp hrows j (List.mem_range.mpr hj)
    cases hinner : mapExcept (fun k =>
        let fit := sabrNodeFit st st.marketVolCube.points j k
        if fit.error < sabrTolerance then Except.ok fit
        else Except.error accuracyMsg) (List.range st.timeLengths.length) with
    | error e => rw [hinner] at houter; simp [exceptIsOk] at houter
    | ok as =>
      have hnode := (mapExcept_isOk_iff _ _).mp (by rw [hinner]; rfl) k
        (List.mem_range.mpr hk)
      by_cases hlt : (sabrNodeFit st st.marketVolCube.points j k).error < sabrTolerance
      · exact le_of_lt hlt
      · rw [if_neg hlt] at hnode
        simp [exceptIsOk] at hnode
  · intro hge
    have hinner : mapExcept (fun k =>
        let fit := sabrNodeFit st st.marketVolCube.points j k
        if fit.error < sabrTolerance then Except.ok fit
        else Except.error accuracyMsg) (List.range st.timeLengths.length)
        = .error accuracyMsg := by
      refine mapExcept_eq_error ?_ (List.mem_range.mpr hk) ?_
      · intro n msg hmsg
        by_cases hc : (sabrNodeFit st st.marketVolCube.points j n).error < sabrTolerance
        · rw [if_pos hc] at hmsg
          cases hmsg
        · rw [if_neg hc] at hmsg
          cases hmsg
          rfl
      · rw [if_neg hge]
    have hrows : sabrCalibrationRows st = .error accuracyMsg := by
      unfold sabrCalibrationRows
      refine mapExcept_eq_error ?_ (List.mem_range.mpr hj) hinner
      intro n msg hmsg
      obtain ⟨m, _, hm⟩ := mapExcept_error_mem hmsg
      by_cases hc : (sabrNodeFit st st.marketVolCube.points n m).error < sabrTolerance
      · rw [if_pos hc] at hm
        cases hm
      · rw [if_neg hc] at hm
        cases hm
        rfl
    unfold sabrCalibration
    rw [hrows]
  · intro hok
    unfold VarianceSmileSection.fromObservations at hok
    by_cases hc : (cal ks vs tte fwd).error < sabrTolerance
    · exact le_of_lt hc
    · rw [if_neg hc] at hok
      simp [exceptIsOk] at hok
  · intro hge
    unfold VarianceSmileSection.fromObservations
    rw [if_neg hge]

theorem shiftIdx_ne (n i : ℕ) : shiftIdx n i ≠ n := by
  unfold shiftIdx
  split <;> omega

theorem sabrTolerance_eq : sabrTolerance = 1 / 10000 := by
  norm_num [sabrTolerance, mkRat, Rat.normalize]

theorem getD_map_lt {α β : Type} (f : α → β) (l : List α) (i : ℕ) (d : α) (d' : β)
    (h : i < l.length) : (l.map f).getD i d' = f (l.getD i d) := by
  rw [List.getD_eq_getElem _ _ (by simpa using h), List.getD_eq_getElem _ _ h]
  simp

theorem matGet_rowInsert {M : Mat} {iIns i0 : ℕ} {zrow : List ℚ} (j0 : ℕ)
    (hiIns : iIns ≤ M.length) (hi0 : i0 < M.length) :
    matGet (M.insertIdx iIns zrow) (shiftIdx iIns i0) j0 = matGet M i0 j0 := by
  unfold matGet
  rw [getD_insertIdx_shift hiIns hi0]

theorem matGet_colInsert {M : Mat} {jIns i0 j0 : ℕ}
    (hi0 : i0 < M.length) (hjIns : jIns ≤ (M.getD i0 []).length)
    (hj0 : j0 < (M.getD i0 []).length) :
    matGet (M.map (fun row => row.insertIdx jIns 0)) i0 (shiftIdx jIns j0)
      = matGet M i0 j0 := by
  unfold matGet
  rw [getD_map_lt _ _ _ [] _ hi0, getD_insertIdx_shift hjIns hj0]

/-- The target cube of the C10 counterexample: one layer, one interpolator. -/
def assignTargetExample : Cube :=
  { expiries := [1, 2], lengths := [1, 2], nLayers := 1, extrapolation := true,
    points := [[[1, 2], [3, 4]]],
    interpolators := [⟨[1, 2], [1, 2], [[1, 2], [3, 4]]⟩] }

/-- The source cube of the C10 counterexample: two layers. -/
def assignSourceExample : Cube :=
  { expiries := [3, 4], lengths := [3, 4], nLayers := 2, extrapolation := true,
    points := [[[5, 6], [7, 8]], [[9, 10], [11, 12]]],
    interpolators := [⟨[3, 4], [3, 4], [[5, 6], [7, 8]]⟩,
      ⟨[3, 4], [3, 4], [[9, 10], [11, 12]]⟩] }

/-- C10 (refuting the claim as stated): for a target cube that held one
interpolator and a source with two layers, after the assignment the queried
interpolator at index `1 < nLayers_` is the one freshly built from the data
of the source (layer `0` of the source data) — it is not among the
pre-assignment interpolators of the
target, so not every queried interpolator is pre-assignment data. -/
theorem cube_assign_fresh_interpolator_queried :
    (Cube.assign assignTargetExample assignSourceExample).toOption.map
        (fun c => c.interpolators.getD 1 default)
      = some ⟨[3, 4], [3, 4], [[5, 6], [7, 8]]⟩ ∧
      Interp2D.mk [3, 4] [3, 4] [[5, 6], [7, 8]]
        ∉ assignTargetExample.interpolators := by
  constructor
  · decide
  · decide

/-- C10 (amended): `Cube::operator=` appends `nLayers_` freshly built
interpolators to the existing `interpolators_` vector without clearing it.
For a target that held at least `nLayers_` interpolators (in particular a
well-formed cube with the same layer count), every index `k < nLayers_` read
by `operator()` still resolves to the pre-assignment interpolator of the
target, so queries keep answering from the pre-assignment data until
`updateInterpolators()` rebuilds index `k` from the current grids and
points. -/
theorem cube_assign_stale_interpolators (t o c' : Cube) (k : ℕ) (e l : ℚ)
    (ho1 : o.points.length = o.nLayers)
    (ho2 : (o.points.getD 0 []).length = o.expiries.length)
    (ho3 : ((o.points.getD 0 []).getD 0 []).length = o.lengths.length)
    (hm : o.nLayers ≤ t.interpolators.length)
    (hk : k < o.nLayers)
    (hok : Cube.assign t o = .ok c') :
    c'.nLayers = o.nLayers ∧
      c'.interpolators.getD k default = t.interpolators.getD k default ∧
      (c'.eval e l).getD k 0 = interpEval (t.interpolators.getD k default) e l ∧
      (c'.updateInterpolators).interpolators.getD k default
        = ⟨c'.expiries, c'.lengths, c'.points.getD k []⟩ := by
  unfold Cube.assign Cube.setPoints matRows matCols at hok
  dsimp only at hok
  rw [if_neg (not_not.mpr ho1), if_neg (not_not.mpr ho2), if_neg (not_not.mpr ho3)]
    at hok
  simp only [Except.ok.injEq] at hok
  subst hok
  refine ⟨rfl, ?_, ?_, ?_⟩
  · exact getD_append_left _ _ _ _ (by omega)
  · unfold Cube.eval
    rw [getD_range_map _ _ _ _ hk]
    rw [getD_append_left _ _ _ _ (by omega)]
  · unfold Cube.updateInterpolators
    rw [getD_append_left _ _ _ _ (by simpa using hk), getD_range_map _ _ _ _ hk]

set_option maxHeartbeats 3200000 in
/-- C2: grid insertion is insertion-stable.  For a well-formed cube holding
value `v = points[k][i0][j0]` at the logical coordinate
`(e0, t0) = (expiries[i0], lengths[j0])`, after any successful
`setPoint(e1, t1, point)` with `(e1, t1) ≠ (e0, t0)` the coordinate still
resolves (by `lower_bound` on the possibly shifted grids) to indices holding
exactly `v`, for every layer `k`. -/
theorem setPoint_preserves_existing (c c' : Cube) (e0 t0 e1 t1 : ℚ)
    (i0 j0 k : ℕ) (point : List ℚ)
    (hw : c.WellFormed)
    (hi0 : i0 < c.expiries.length) (hj0 : j0 < c.lengths.length)
    (he0 : c.expiries.getD i0 0 = e0) (ht0 : c.lengths.getD j0 0 = t0)
    (hne : ¬ (e1 = e0 ∧ t1 = t0))
    (hok : c.setPoint e1 t1 point = .ok c') :
    c'.expiries.getD (lowerBound c'.expiries e0) 0 = e0 ∧
      c'.lengths.getD (lowerBound c'.lengths t0) 0 = t0 ∧
      matGet (c'.points.getD k []) (lowerBound c'.expiries e0)
          (lowerBound c'.lengths t0)
        = matGet (c.points.getD k []) i0 j0 := by
  obtain ⟨hsE, hsL, hlen, hdims⟩ := hw
  have hwf : c.WellFormed := ⟨hsE, hsL, hlen, hdims⟩
  have hdimk : k < c.nLayers →
      (c.points.getD k []).length = c.expiries.length ∧
        ∀ row ∈ c.points.getD k [], row.length = c.lengths.length :=
    fun hk => wf_layer_dims hwf hk
  by_cases hE : e1 ∈ c.expiries <;> by_cases hL : t1 ∈ c.lengths
  · -- both coordinates already present: no expansion, write at the located indices
    have hbsE : binarySearch c.expiries e1 = true := by simp [binarySearch, hE]
    have hbsL : binarySearch c.lengths t1 = true := by simp [binarySearch, hL]
    have hiE : lowerBound c.expiries e1 < c.expiries.length :=
      lowerBound_lt_length_of_mem hE
    have hiL : lowerBound c.lengths t1 < c.lengths.length :=
      lowerBound_lt_length_of_mem hL
    have hgE : c.expiries.getD (lowerBound c.expiries e1) 0 = e1 :=
      getD_lowerBound_of_mem hsE hE
    have hgL : c.lengths.getD (lowerBound c.lengths t1) 0 = t1 :=
      getD_lowerBound_of_mem hsL hL
    unfold Cube.setPoint at hok
    rw [hbsE, hbsL] at hok
    simp only [Bool.not_true, Bool.or_self, Bool.false_eq_true, if_false] at hok
    try dsimp only at hok
    simp only [Except.ok.injEq] at hok
    subst hok
    dsimp only
    rw [set_getD_self hiE hgE, set_getD_self hiL hgL,
      lowerBound_eq_of_sorted hsE hi0 he0, lowerBound_eq_of_sorted hsL hj0 ht0]
    refine ⟨he0, ht0, ?_⟩
    rcases Nat.lt_or_ge k c.nLayers with hk | hk
    · rw [getD_range_map _ _ _ _ hk]
      refine matGet_matSet_ne ?_
      by_contra hcol
      push_neg at hcol
      refine hne ⟨?_, ?_⟩
      · rw [← hgE, ← hcol.1]
        exact he0
      · rw [← hgL, ← hcol.2]
        exact ht0
    · rw [getD_range_map_ge _ _ _ _ hk,
        getD_eq_default_of_le c.points k [] (by omega)]
      try simp [matGet]
  · -- new length only: a zero column is inserted at the located length index
    have hbsE : binarySearch c.expiries e1 = true := by simp [binarySearch, hE]
    have hbsL : binarySearch c.lengths t1 = false := by simp [binarySearch, hL]
    have hiE : lowerBound c.expiries e1 < c.expiries.length :=
      lowerBound_lt_length_of_mem hE
    have hgE : c.expiries.getD (lowerBound c.expiries e1) 0 = e1 :=
      getD_lowerBound_of_mem hsE hE
    have hiL0 : lowerBound c.lengths t1 ≤ c.lengths.length :=
      lowerBound_le_length _ _
    unfold Cube.setPoint at hok
    rw [hbsE, hbsL] at hok
    simp only [Bool.not_true, Bool.not_false, Bool.false_or, if_true] at hok
    unfold Cube.expandLayers Cube.setPoints at hok
    dsimp only at hok
    split_ifs at hok with h1 h2 h3 h4 h5
    all_goals try contradiction
    all_goals injection hok with hok2
    subst hok2
    dsimp only
    rw [set_getD_self hiE hgE, set_insertIdx _ _ _ _ hiL0,
      lowerBound_eq_of_sorted hsE hi0 he0]
    have hsL' : (c.lengths.insertIdx (lowerBound c.lengths t1) t1).Sorted (· < ·) :=
      sorted_insertIdx_lowerBound hsL hL
    have hshift : (c.lengths.insertIdx (lowerBound c.lengths t1) t1).getD
        (shiftIdx (lowerBound c.lengths t1) j0) 0 = t0 := by
      rw [getD_insertIdx_shift hiL0 hj0]
      exact ht0
    have hlb' : lowerBound (c.lengths.insertIdx (lowerBound c.lengths t1) t1) t0
        = shiftIdx (lowerBound c.lengths t1) j0 := by
      refine lowerBound_eq_of_sorted hsL' ?_ hshift
      rw [List.length_insertIdx _ _ hiL0]
      unfold shiftIdx
      split <;> omega
    rw [hlb']
    refine ⟨he0, hshift, ?_⟩
    rcases Nat.lt_or_ge k c.nLayers with hk | hk
    · rw [getD_range_map _ _ _ _ hk,
        matGet_matSet_ne (Or.inr (shiftIdx_ne _ j0)),
        getD_range_map _ _ _ _ hk]
      obtain ⟨hrows, hcols⟩ := hdimk hk
      have hi0' : i0 < (c.points.getD k []).length := by omega
      have hrow : (c.points.getD k []).getD i0 [] ∈ c.points.getD k [] := by
        rw [List.getD_eq_getElem _ _ hi0']
        exact List.getElem_mem hi0'
      have hrl : ((c.points.getD k []).getD i0 []).length = c.lengths.length :=
        hcols _ hrow
      exact matGet_colInsert hi0' (by omega) (by omega)
    · rw [getD_range_map_ge _ _ _ _ hk,
        getD_eq_default_of_le c.points k [] (by omega)]
      try simp [matGet]
  · -- new expiry only: a zero row is inserted at the located expiry index
    have hbsE : binarySearch c.expiries e1 = false := by simp [binarySearch, hE]
    have hbsL : binarySearch c.lengths t1 = true := by simp [binarySearch, hL]
    have hiL : lowerBound c.lengths t1 < c.lengths.length :=
      lowerBound_lt_length_of_mem hL
    have hgL : c.lengths.getD (lowerBound c.lengths t1) 0 = t1 :=
      getD_lowerBound_of_mem hsL hL
    have hiE0 : lowerBound c.expiries e1 ≤ c.expiries.length :=
      lowerBound_le_length _ _
    unfold Cube.setPoint at hok
    rw [hbsE, hbsL] at hok
    simp only [Bool.not_true, Bool.not_false, Bool.or_false, if_true] at hok
    unfold Cube.expandLayers Cube.setPoints at hok
    dsimp only at hok
    split_ifs at hok with h1 h2 h3 h4 h5
    all_goals try contradiction
    all_goals injection hok with hok2
    subst hok2
    dsimp only
    rw [set_getD_self hiL hgL, set_insertIdx _ _ _ _ hiE0,
      lowerBound_eq_of_sorted hsL hj0 ht0]
    have hsE' : (c.expiries.insertIdx (lowerBound c.expiries e1) e1).Sorted (· < ·) :=
      sorted_insertIdx_lowerBound hsE hE
    have hshift : (c.expiries.insertIdx (lowerBound c.expiries e1) e1).getD
        (shiftIdx (lowerBound c.expiries e1) i0) 0 = e0 := by
      rw [getD_insertIdx_shift hiE0 hi0]
      exact he0
    have hlb' : lowerBound (c.expiries.insertIdx (lowerBound c.expiries e1) e1) e0
        = shiftIdx (lowerBound c.expiries e1) i0 := by
      refine lowerBound_eq_of_sorted hsE' ?_ hshift
      rw [List.length_insertIdx _ _ hiE0]
      unfold shiftIdx
      split <;> omega
    rw [hlb']
    refine ⟨hshift, ht0, ?_⟩
    rcases Nat.lt_or_ge k c.nLayers with hk | hk
    · rw [getD_range_map _ _ _ _ hk,
        matGet_matSet_ne (Or.inl (shiftIdx_ne _ i0)),
        getD_range_map _ _ _ _ hk]
      obtain ⟨hrows, hcols⟩ := hdimk hk
      exact matGet_rowInsert j0 (by omega) (by omega)
    · rw [getD_range_map_ge _ _ _ _ hk,
        getD_eq_default_of_le c.points k [] (by omega)]
      try simp [matGet]
  · -- both coordinates new: a zero row and a zero column are inserted
    have hbsE : binarySearch c.expiries e1 = false := by simp [binarySearch, hE]
    have hbsL : binarySearch c.lengths t1 = false := by simp [binarySearch, hL]
    have hiE0 : lowerBound c.expiries e1 ≤ c.expiries.length :=
      lowerBound_le_length _ _
    have hiL0 : lowerBound c.lengths t1 ≤ c.lengths.length :=
      lowerBound_le_length _ _
    unfold Cube.setPoint at hok
    rw [hbsE, hbsL] at hok
    simp only [Bool.not_false, Bool.or_self, if_true] at hok
    unfold Cube.expandLayers Cube.setPoints at hok
    dsimp only at hok
    split_ifs at hok with h1 h2 h3 h4 h5
    all_goals try contradiction
    all_goals injection hok with hok2
    subst hok2
    dsimp only
    rw [set_insertIdx _ _ _ _ hiE0, set_insertIdx _ _ _ _ hiL0]
    have hsE' : (c.expiries.insertIdx (lowerBound c.expiries e1) e1).Sorted (· < ·) :=
      sorted_insertIdx_lowerBound hsE hE
    have hsL' : (c.lengths.insertIdx (lowerBound c.lengths t1) t1).Sorted (· < ·) :=
      sorted_insertIdx_lowerBound hsL hL
    have hshiftE : (c.expiries.insertIdx (lowerBound c.expiries e1) e1).getD
        (shiftIdx (lowerBound c.expiries e1) i0) 0 = e0 := by
      rw [getD_insertIdx_shift hiE0 hi0]
      exact he0
    have hshiftL : (c.lengths.insertIdx (lowerBound c.lengths t1) t1).getD
        (shiftIdx (lowerBound c.lengths t1) j0) 0 = t0 := by
      rw [getD_insertIdx_shift hiL0 hj0]
      exact ht0
    have hlbE : lowerBound (c.expiries.insertIdx (lowerBound c.expiries e1) e1) e0
        = shiftIdx (lowerBound c.expiries e1) i0 := by
      refine lowerBound_eq_of_sorted hsE' ?_ hshiftE
      rw [List.length_insertIdx _ _ hiE0]
      unfold shiftIdx
      split <;> omega
    have hlbL : lowerBound (c.lengths.insertIdx (lowerBound c.lengths t1) t1) t0
        = shiftIdx (lowerBound c.lengths t1) j0 := by
      refine lowerBound_eq_of_sorted hsL' ?_ hshiftL
      rw [List.length_insertIdx _ _ hiL0]
      unfold shiftIdx
      split <;> omega
    rw [hlbE, hlbL]
    refine ⟨hshiftE, hshiftL, ?_⟩
    rcases Nat.lt_or_ge k c.nLayers with hk | hk
    · rw [getD_range_map _ _ _ _ hk,
        matGet_matSet_ne (Or.inl (shiftIdx_ne _ i0)),
        getD_range_map _ _ _ _ hk]
      obtain ⟨hrows, hcols⟩ := hdimk hk
      have hi0' : i0 < (c.points.getD k []).length := by omega
      have hrow : (c.points.getD k []).getD i0 [] ∈ c.points.getD k [] := by
        rw [List.getD_eq_getElem _ _ hi0']
        exact List.getElem_mem hi0'
      have hrl : ((c.points.getD k []).getD i0 []).length = c.lengths.length :=
        hcols _ hrow
      have hmap : i0 < ((c.points.getD k []).map
          (fun row => row.insertIdx (lowerBound c.lengths t1) 0)).length := by
        simpa using hi0'
      rw [matGet_rowInsert (shiftIdx (lowerBound c.lengths t1) j0)
        (by simpa using hiE0.trans (le_of_eq hrows.symm)) hmap]
      exact matGet_colInsert hi0' (by omega) (by omega)
    · rw [getD_range_map_ge _ _ _ _ hk,
        getD_eq_default_of_le c.points k [] (by omega)]
      try simp [matGet]

/-! ## Concrete witnesses -/

/-- A two-by-two one-layer cube used to witness insertion stability. -/
def insertionWitnessCube : Cube :=
  { expiries := [1, 3], lengths := [1, 3], nLayers := 1, extrapolation := true,
    points := [[[10, 20], [30, 40]]], interpolators := [] }

/-- The cube obtained from `insertionWitnessCube` by `setPoint 2 2 [7]`. -/
def insertionWitnessCube' : Cube :=
  { expiries := [1, 2, 3], lengths := [1, 2, 3], nLayers := 1, extrapolation := true,
    points := [[[10, 0, 20], [0, 7, 0], [30, 0, 40]]], interpolators := [] }

/-- Witness for C2 at a concrete insertion: the value `40` stored at the
logical coordinate `(3, 3)` is still found there after inserting `(2, 2)`. -/
theorem setPoint_preserves_existing_witness :
    insertionWitnessCube.setPoint 2 2 [7] = .ok insertionWitnessCube' ∧
      insertionWitnessCube'.expiries.getD
        (lowerBound insertionWitnessCube'.expiries 3) 0 = 3 ∧
      insertionWitnessCube'.lengths.getD
        (lowerBound insertionWitnessCube'.lengths 3) 0 = 3 ∧
      matGet (insertionWitnessCube'.points.getD 0 [])
          (lowerBound insertionWitnessCube'.expiries 3)
          (lowerBound insertionWitnessCube'.lengths 3)
        = matGet (insertionWitnessCube.points.getD 0 []) 1 1 := by
  have h := setPoint_preserves_existing insertionWitnessCube insertionWitnessCube'
    3 3 2 2 1 1 0 [7] (by decide) (by decide) (by decide) (by decide) (by decide)
    (by decide) (by decide)
  exact ⟨by decide, h.1, h.2.1, h.2.2⟩

/-- Witness for C9: on a cube with grids `[1, 3]`, inserting at expiry `4`
(beyond the grid) raises the first `expandLayers` error; inserting length `4`
(beyond the grid) raises the second, both at the present expiry `3` and at
the new interior expiry `2`. -/
theorem setPoint_beyond_grid_error_witness :
    insertionWitnessCube.setPoint 4 1 [5]
        = .error "Cube::expandLayers: incompatible size 1" ∧
      insertionWitnessCube.setPoint 3 4 [5]
        = .error "Cube::expandLayers: incompatible size 2" ∧
      insertionWitnessCube.setPoint 2 4 [5]
        = .error "Cube::expandLayers: incompatible size 2" := by
  exact ⟨(setPoint_beyond_grid_error insertionWitnessCube 4 1 [5]).1 (by decide),
    (setPoint_beyond_grid_error insertionWitnessCube 3 4 [5]).2 (by decide) (by decide),
    (setPoint_beyond_grid_error insertionWitnessCube 2 4 [5]).2 (by decide) (by decide)⟩

/-- Witness for C4 (amended) at the grid `[1, 2, 5, 9]` and a target `7` in
the last interval: the bracket is valid, the upper value is at least the
target, and here the lower value is at most the target. -/
theorem bracketLowerIndex_spec_witness :
    bracketLowerIndex [1, 2, 5, 9] 7 + 1 < 4 ∧
      (7 : ℚ) ≤ [(1 : ℚ), 2, 5, 9].getD (bracketLowerIndex [1, 2, 5, 9] 7 + 1) 0 ∧
      [(1 : ℚ), 2, 5, 9].getD (bracketLowerIndex [1, 2, 5, 9] 7) 0 ≤ 7 := by
  have h := bracketLowerIndex_spec [1, 2, 5, 9] 7 (by decide) (by decide) (by decide)
  exact ⟨h.1, h.2.1, h.2.2 (Or.inr (by decide))⟩

/-- The four bracketing forwards of the C5 witness. -/
def moneynessWitnessForwards : Mat := [[1, 1], [1, 1]]

/-- The shared moneyness profile of the C5 witness smiles. -/
def moneynessWitnessProfile : ℕ → ℕ → ℚ → ℚ := fun _ _ x => x

/-- The C5 witness smiles anchored at the unscaled forwards. -/
def moneynessWitnessSmiles : ℕ → ℕ → ℚ → ℚ := fun i j s =>
  moneynessWitnessProfile i j (matGet moneynessWitnessForwards i j / s)

/-- The C5 witness smiles anchored at the forwards scaled by `2`. -/
def moneynessWitnessSmilesScaled : ℕ → ℕ → ℚ → ℚ := fun i j s =>
  moneynessWitnessProfile i j (matGet (matScale 2 moneynessWitnessForwards) i j / s)

/-- Witness for C5 at concrete data: scaling the four forwards by `2` with
the moneyness held at `2` leaves the interpolated spread unchanged. -/
theorem spreadVolAtMoneyness_scale_invariant_witness :
    spreadVolAtMoneyness [1, 2] [1, 2] (matScale 2 moneynessWitnessForwards)
        moneynessWitnessSmilesScaled 2 1 1
      = spreadVolAtMoneyness [1, 2] [1, 2] moneynessWitnessForwards
        moneynessWitnessSmiles 2 1 1 := by
  exact spreadVolAtMoneyness_scale_invariant [1, 2] [1, 2] moneynessWitnessForwards
    moneynessWitnessProfile 2 2 1 1 (by decide) (by decide) (by decide)

/-- The C8 witness cube: grids `[1, 2]`, three strike offsets, an all-zero
spread matrix filled through the constructor mapping, a constant external ATM
volatility `7` and a constant ATM forward `5`. -/
def atmPassthroughWitness : SwaptionVolatilityCube :=
  { exerciseTimes := [1, 2], timeLengths := [1, 2], strikeSpreads := [-1, 0, 1],
    volSpreads := volSpreadsOfMatrix (matZero 4 3) 2 2 3,
    atmVol := fun _ _ _ => 7, atmStrike := fun _ _ => 5 }

/-- Witness for C8: on the all-zero-spread witness cube the query at the ATM
strike returns the ATM reference volatility. -/
theorem volatilityImpl_atm_passthrough_witness :
    atmPassthroughWitness.volatilityImpl 1 1 (atmPassthroughWitness.atmStrike 1 1)
      = atmPassthroughWitness.atmVol 1 1 (atmPassthroughWitness.atmStrike 1 1) := by
  exact volatilityImpl_atm_passthrough_of_zero_spreads atmPassthroughWitness 1 1
    (by decide) (by decide)

/-- The always-accurate SABR fit of the C1 witness. -/
def calibrationWitnessFit : Calibrator := fun _ _ _ _ => ⟨2, 36, 40, 20, 0⟩

/-- A SABR fit whose residual `1` violates the tolerance, for the C1
witness. -/
def calibrationWitnessBadFit : Calibrator := fun _ _ _ _ => ⟨0, 0, 0, 0, 1⟩

/-- A constant closed-form curve for the C1 witness. -/
def calibrationWitnessCurve : SabrFit → ℚ → ℚ := fun _ _ => 0

/-- The member market cube of the C1 witness state. -/
def calibrationWitnessCube : Cube :=
  { expiries := [1, 2], lengths := [1, 2], nLayers := 3, extrapolation := true,
    points := [[[1, 1], [1, 1]], [[1, 1], [1, 1]], [[1, 1], [1, 1]]],
    interpolators := [] }

/-- The C1 witness state. -/
def calibrationWitnessState : SabrCubeState :=
  { exerciseTimes := [1, 2], timeLengths := [1, 2], strikeSpreads := [-1, 0, 1],
    atmStrike := fun _ _ => 5, calibrate := calibrationWitnessFit,
    marketVolCube := calibrationWitnessCube }

/-- Witness for C1: with the accurate fit the completed calibration has the
node residual within tolerance, and with the inaccurate fit the calibrating
smile-section constructor raises the accuracy error. -/
theorem sabr_calibration_accuracy_witness :
    (sabrNodeFit calibrationWitnessState
        calibrationWitnessState.marketVolCube.points 0 0).error ≤ sabrTolerance ∧
      VarianceSmileSection.fromObservations calibrationWitnessBadFit
          calibrationWitnessCurve 1 5 [1] [1]
        = .error accuracyMsg := by
  have h := sabr_calibration_accuracy calibrationWitnessState calibrationWitnessCube
    0 0 calibrationWitnessBadFit calibrationWitnessCurve 1 5 [1] [1]
    (by decide) (by decide)
  exact ⟨h.1 (by decide), h.2.2.2 (by decide)⟩

/-- A one-layer source cube for the C10 witness assignment. -/
def assignWitnessSource : Cube :=
  { expiries := [3, 4], lengths := [3, 4], nLayers := 1, extrapolation := true,
    points := [[[5, 6], [7, 8]]],
    interpolators := [⟨[3, 4], [3, 4], [[5, 6], [7, 8]]⟩] }

/-- The cube obtained by assigning `assignWitnessSource` onto
`assignTargetExample`. -/
def assignWitnessResult : Cube :=
  { expiries := [3, 4], lengths := [3, 4], nLayers := 1, extrapolation := true,
    points := [[[5, 6], [7, 8]]],
    interpolators := [⟨[1, 2], [1, 2], [[1, 2], [3, 4]]⟩,
      ⟨[3, 4], [3, 4], [[5, 6], [7, 8]]⟩] }

/-- Witness for C10 (amended) at a concrete same-layer-count assignment: the
queried interpolator at index `0` is the pre-assignment one of the target,
and `updateInterpolators` rebuilds it from the current points. -/
theorem cube_assign_stale_interpolators_witness :
    Cube.assign assignTargetExample assignWitnessSource = .ok assignWitnessResult ∧
      assignWitnessResult.nLayers = assignWitnessSource.nLayers ∧
      assignWitnessResult.interpolators.getD 0 default
        = assignTargetExample.interpolators.getD 0 default ∧
      (assignWitnessResult.eval 1 1).getD 0 0
        = interpEval (assignTargetExample.interpolators.getD 0 default) 1 1 ∧
      (assignWitnessResult.updateInterpolators).interpolators.getD 0 default
        = ⟨assignWitnessResult.expiries, assignWitnessResult.lengths,
            assignWitnessResult.points.getD 0 []⟩ := by
  have h := cube_assign_stale_interpolators assignTargetExample assignWitnessSource
    assignWitnessResult 0 1 1 (by decide) (by decide) (by decide) (by decide)
    (by decide) (by decide)
  exact ⟨by decide, h.1, h.2.1, h.2.2.1, h.2.2.2⟩

end QuantLib
